import Mathlib

/-!
Shallow embedding of the story/chapter consistency layer of the admin panel:
`src/firebase/services/chapterService.js` and `src/firebase/services/storyService.js`.

The Firestore document store is modelled as association lists keyed by `Nat`
document ids; `DB.nextId` supplies the fresh ids that `addDoc` assigns.  Server
timestamps are `Nat` values: every top-level operation receives the commit time
`now` of its write (`serverTimestamp()` resolves to it).  A failing Firestore
call (`updateDoc` on a missing document, an aborted `runTransaction`) is an
`Except.error` carrying the thrown message; operations that can leave the store
mutated even on failure return the mutated store next to the error.
-/

/-- A chapter document, fields as in the chapterService.js header comment. -/
structure Chapter where
  storyId : Nat
  chapterNumber : Nat
  title : String
  content : String
  status : String
  createdAt : Nat
  updatedAt : Nat
  wordCount : Nat
  authorId : String
deriving DecidableEq

/-- A story document, fields as in the storyService.js header comment.
`chapters` is the stored chapter-count field. -/
structure Story where
  title : String
  description : String
  category : String
  status : String
  coverImage : Option String
  chapters : Nat
  createdAt : Nat
  updatedAt : Nat
  authorId : String
deriving DecidableEq

/-- One document of the append-only `storyEdits` collection written by
updateChapter's edit log branch. -/
structure EditLog where
  storyId : Nat
  chapterId : Nat
  editedAt : Nat
deriving DecidableEq

/-- The document store: both collections, the edit log, and the counter from
which `addDoc` assigns fresh document ids. -/
structure DB where
  chapters : List (Nat × Chapter)
  stories : List (Nat × Story)
  storyEdits : List EditLog
  nextId : Nat
deriving DecidableEq

/-- Document lookup by id (Firestore `getDoc`, `transaction.get`): the data of
the first entry carrying the id, `none` when the document does not exist. -/
def getDocData {α : Type} : List (Nat × α) → Nat → Option α
  | [], _ => none
  | (k, v) :: rest, key => if k = key then some v else getDocData rest key

/-- Write a document in place by id: every entry carrying the id is replaced.
The merge semantics of `updateDoc` / `transaction.update` (absent fields keep
their stored value) is applied by the callers, which pass the merged record. -/
def setDocData {α : Type} (l : List (Nat × α)) (key : Nat) (v : α) : List (Nat × α) :=
  l.map fun p => if p.1 = key then (key, v) else p

/-- Document removal by id (Firestore `deleteDoc`; a no-op when absent). -/
def removeDoc {α : Type} (l : List (Nat × α)) (key : Nat) : List (Nat × α) :=
  l.filter fun p => p.1 ≠ key

/-- Scan to the character right after the next `>`; `none` when no `>` remains.
This is one match of the regex `<[^>]*>` attempted at a `<`: the character
class crosses every character except `>`, so the match ends at the first `>`. -/
def findTagEnd : List Char → Option (List Char)
  | [] => none
  | c :: rest => if c = '>' then some rest else findTagEnd rest

/-- `content.replace(/<[^>]*>/g, '')`, written with explicit fuel so that it is
structurally recursive: drop every `<...>` span; a `<` with no later `>` is kept
verbatim because the regex has no match there.  Each step consumes at least one
character, so `length + 1` fuel always suffices. -/
def stripHtmlTagsFuel : Nat → List Char → List Char
  | 0, l => l
  | _ + 1, [] => []
  | fuel + 1, c :: rest =>
    if c = '<' then
      match findTagEnd rest with
      | some rest2 => stripHtmlTagsFuel fuel rest2
      | none => c :: stripHtmlTagsFuel fuel rest
    else c :: stripHtmlTagsFuel fuel rest

/-- The tag-stripping pass of calculateWordCount. -/
def stripHtmlTags (l : List Char) : List Char :=
  stripHtmlTagsFuel (l.length + 1) l

/-- The whitespace class of the JS regex `\s` restricted to the characters that
occur in stored content: space, tab, newline, carriage return, vertical tab and
form feed. -/
def jsIsSpace (c : Char) : Bool :=
  c = ' ' || c = '\t' || c = '\n' || c = '\r' || c = Char.ofNat 11 || c = Char.ofNat 12

/-- `textContent.trim().split(/\s+/).filter(word => word.length > 0).length`:
the number of maximal runs of non-whitespace characters.  `inWord` records
whether the previous character belonged to a run. -/
def countWordsAux : List Char → Bool → Nat
  | [], _ => 0
  | c :: rest, inWord =>
    if jsIsSpace c then countWordsAux rest false
    else (if inWord then 0 else 1) + countWordsAux rest true

/-- chapterService.js `calculateWordCount`: `0` for falsy (empty) content, else
strip the HTML tags and count the whitespace-delimited words. -/
def calculateWordCount (content : String) : Nat :=
  if content = "" then 0
  else countWordsAux (stripHtmlTags content.data) false

/-- chapterService.js `getChaptersByStory`: equality query on `storyId`, an
optional equality filter on `status`, then a sort ascending by chapter number
(the JS comparator `(a.chapterNumber || 0) - (b.chapterNumber || 0)`). -/
def getChaptersByStory (db : DB) (storyId : Nat) (statusFilter : Option String := none) :
    List (Nat × Chapter) :=
  let docs := db.chapters.filter fun p =>
    p.2.storyId == storyId &&
      (match statusFilter with
       | none => true
       | some st => p.2.status == st)
  List.insertionSort (fun p q => p.2.chapterNumber ≤ q.2.chapterNumber) docs

/-- chapterService.js `getChapterById`. -/
def getChapterById (db : DB) (chapterId : Nat) : Except String Chapter :=
  match getDocData db.chapters chapterId with
  | some ch => Except.ok ch
  | none => Except.error "Failed to fetch chapter: Chapter not found"

/-- storyService.js `getStoryById`. -/
def getStoryById (db : DB) (storyId : Nat) : Except String Story :=
  match getDocData db.stories storyId with
  | some s => Except.ok s
  | none => Except.error "Failed to fetch story: Story not found"

/-- storyService.js `updateStoryChapterCount`: write ONLY the `chapters` field
of the story (the source comment: do NOT touch the timestamp); `updateDoc`
fails when the story document does not exist. -/
def updateStoryChapterCount (db : DB) (storyId : Nat) (chapterCount : Nat) :
    Except String DB :=
  match getDocData db.stories storyId with
  | none => Except.error "Failed to update story chapter count: No document to update"
  | some s =>
    Except.ok
      { db with stories := setDocData db.stories storyId { s with chapters := chapterCount } }

/-- chapterService.js `updateStoryChapterCountForStory`: recompute the count
from a live `getChaptersByStory` query and persist it; any failure is logged
and suppressed (the catch block does not rethrow). -/
def updateStoryChapterCountForStory (db : DB) (storyId : Nat) : DB :=
  match updateStoryChapterCount db storyId (getChaptersByStory db storyId).length with
  | Except.ok db2 => db2
  | Except.error _ => db

/-- `updateDoc(storyRef, \x7b updatedAt: serverTimestamp() \x7d)` (and the same
write issued through `transaction.update`): set the story's `updatedAt` to the
commit time; fails when the story document does not exist. -/
def touchStoryUpdatedAt (db : DB) (storyId : Nat) (now : Nat) : Except String DB :=
  match getDocData db.stories storyId with
  | none => Except.error "No document to update"
  | some s =>
    Except.ok
      { db with stories := setDocData db.stories storyId { s with updatedAt := now } }

/-- The chapter fields the UI supplies to createChapter. -/
structure ChapterInput where
  storyId : Nat
  chapterNumber : Nat
  title : String
  content : String
  status : String
deriving DecidableEq

/-- The `chapterToCreate` object built by createChapter: the input fields plus
server timestamps, `authorId: 'admin'` and the computed word count. -/
def chapterToCreate (now : Nat) (input : ChapterInput) : Chapter :=
  { storyId := input.storyId
    chapterNumber := input.chapterNumber
    title := input.title
    content := input.content
    status := input.status
    createdAt := now
    updatedAt := now
    wordCount := calculateWordCount input.content
    authorId := "admin" }

/-- chapterService.js `createChapter`: `addDoc` appends the built chapter under
the fresh id `db.nextId`; then the suppressed chapter-count recomputation runs;
and only when the new chapter's status is `published` the parent story's
`updatedAt` is set.  There is no transaction here: when the final story write
throws (missing story), the chapter write and count write have already
committed, so the mutated store is returned next to the error. -/
def createChapter (db : DB) (now : Nat) (input : ChapterInput) :
    Except String Chapter × DB :=
  let ch : Chapter := chapterToCreate now input
  let db1 : DB :=
    { db with chapters := db.chapters ++ [(db.nextId, ch)], nextId := db.nextId + 1 }
  let db2 := updateStoryChapterCountForStory db1 input.storyId
  if input.status = "published" then
    match touchStoryUpdatedAt db2 input.storyId now with
    | Except.ok db3 => (Except.ok ch, db3)
    | Except.error e => (Except.error ("Failed to create chapter: " ++ e), db2)
  else
    (Except.ok ch, db2)

/-- Partial chapter changes passed to updateChapter: `none` models a field
absent from the JS update object. -/
structure UpdateData where
  title : Option String := none
  content : Option String := none
  chapterNumber : Option Nat := none
  status : Option String := none
deriving DecidableEq

/-- JS truthiness of `updateData.content`: present and non-empty. -/
def contentTruthy (upd : UpdateData) : Bool :=
  match upd.content with
  | some c => c ≠ ""
  | none => false

/-- The merged chapter `transaction.update(chapterRef, chapterToUpdate)` stores:
fields present in the update object overwrite, absent ones keep their stored
value; `updatedAt` is always written; `wordCount` is recomputed only when the
new content is truthy (`updateData.content ? calculateWordCount(...) :
undefined`, the `undefined` entry being deleted before the write). -/
def applyChapterUpdate (ch : Chapter) (upd : UpdateData) (now : Nat) : Chapter :=
  { ch with
    title := upd.title.getD ch.title
    content := upd.content.getD ch.content
    chapterNumber := upd.chapterNumber.getD ch.chapterNumber
    status := upd.status.getD ch.status
    updatedAt := now
    wordCount :=
      if contentTruthy upd then calculateWordCount (upd.content.getD "") else ch.wordCount }

/-- chapterService.js `updateChapter`: one `runTransaction` that (a) reads the
chapter — `Chapter not found` aborts with zero writes; (b) writes the merged
chapter; (c) touches the parent story's `updatedAt` exactly when the new status
is `published` and the old one was not; (d) appends an edit-log document when
the change carries truthy content.  A transaction failure (missing chapter, or
missing parent story on the publish path) commits nothing, so the original
store is returned next to the error.  On commit the chapter is re-read via
`getChapterById`. -/
def updateChapter (db : DB) (now : Nat) (chapterId : Nat) (upd : UpdateData) :
    Except String Chapter × DB :=
  match getDocData db.chapters chapterId with
  | none => (Except.error "Failed to update chapter: Chapter not found", db)
  | some ch =>
    let newCh := applyChapterUpdate ch upd now
    let db1 : DB := { db with chapters := setDocData db.chapters chapterId newCh }
    let afterStory : Except String DB :=
      if upd.status = some "published" ∧ ch.status ≠ "published" then
        touchStoryUpdatedAt db1 ch.storyId now
      else
        Except.ok db1
    match afterStory with
    | Except.error e => (Except.error ("Failed to update chapter: " ++ e), db)
    | Except.ok db2 =>
      let db3 : DB :=
        if contentTruthy upd then
          { db2 with
            storyEdits := db2.storyEdits ++
              [{ storyId := ch.storyId, chapterId := chapterId, editedAt := now }] }
        else db2
      match getChapterById db3 chapterId with
      | Except.ok c => (Except.ok c, db3)
      | Except.error e => (Except.error ("Failed to update chapter: " ++ e), db3)

/-- chapterService.js `deleteChaptersByStoryId`: query the story's chapters,
then delete each returned document by its id. -/
def deleteChaptersByStoryId (db : DB) (storyId : Nat) : DB :=
  { db with
    chapters :=
      (getChaptersByStory db storyId).foldl (fun cur p => removeDoc cur p.1) db.chapters }

/-- chapterService.js `deleteChapter`: fetch the chapter first (to learn its
`storyId`; `Chapter not found` aborts with zero writes), delete it, then run
the suppressed chapter-count recomputation. -/
def deleteChapter (db : DB) (chapterId : Nat) : Except String DB :=
  match getDocData db.chapters chapterId with
  | none => Except.error "Failed to delete chapter: Failed to fetch chapter: Chapter not found"
  | some ch =>
    let db1 : DB := { db with chapters := removeDoc db.chapters chapterId }
    Except.ok (updateStoryChapterCountForStory db1 ch.storyId)

/-- storyService.js `deleteStory`: cascade-delete every chapter of the story,
then delete the story document itself (`deleteDoc` never fails on a missing
document). -/
def deleteStory (db : DB) (storyId : Nat) : DB :=
  let db1 := deleteChaptersByStoryId db storyId
  { db1 with stories := removeDoc db1.stories storyId }

/-- chapterService.js `getNextChapterNumber`: `1` when the story has no
chapters, else `Math.max(...chapterNumbers) + 1`.  A pure read. -/
def getNextChapterNumber (db : DB) (storyId : Nat) : Nat :=
  let chs := getChaptersByStory db storyId
  if chs.length = 0 then 1
  else ((chs.map fun p => p.2.chapterNumber).foldl max 0) + 1

/-- The loop body of publishChapters' transaction: set each listed chapter's
status to `published` with a fresh `updatedAt`; `transaction.update` on a
missing document aborts the whole transaction. -/
def publishChaptersLoop (now : Nat) : List Nat → DB → Except String DB
  | [], db => Except.ok db
  | cid :: rest, db =>
    match getDocData db.chapters cid with
    | none => Except.error "No document to update"
    | some ch =>
      publishChaptersLoop now rest
        { db with
          chapters := setDocData db.chapters cid { ch with status := "published", updatedAt := now } }

/-- chapterService.js `publishChapters`: one transaction publishing every
listed chapter; it never writes to the stories collection. -/
def publishChapters (db : DB) (now : Nat) (chapterIds : List Nat) : Except String DB :=
  match publishChaptersLoop now chapterIds db with
  | Except.ok db2 => Except.ok db2
  | Except.error e => Except.error ("Failed to publish chapters: " ++ e)

/-- The loop body of reorderChapters' transaction: write each listed chapter's
new `chapterNumber` with a fresh `updatedAt`. -/
def reorderChaptersLoop (now : Nat) : List (Nat × Nat) → DB → Except String DB
  | [], db => Except.ok db
  | (cid, num) :: rest, db =>
    match getDocData db.chapters cid with
    | none => Except.error "No document to update"
    | some ch =>
      reorderChaptersLoop now rest
        { db with
          chapters := setDocData db.chapters cid { ch with chapterNumber := num, updatedAt := now } }

/-- chapterService.js `reorderChapters`: one transaction renumbering the listed
chapters; it never writes to the stories collection. -/
def reorderChapters (db : DB) (now : Nat) (orders : List (Nat × Nat)) : Except String DB :=
  match reorderChaptersLoop now orders db with
  | Except.ok db2 => Except.ok db2
  | Except.error e => Except.error ("Failed to reorder chapters: " ++ e)

/-- The story fields the UI supplies to createStory (the cover upload is
abstracted to its resolved URL). -/
structure StoryInput where
  title : String
  description : Option String := none
  category : Option String := none
  status : Option String := none
deriving DecidableEq

/-- storyService.js `createStory`: build the story with the `||`-defaults of
the source (`description || ''`, `category || 'Original'`, `status || 'Draft'`),
zero chapters, server timestamps and `authorId: 'admin'`; `addDoc` appends it
under the fresh id `db.nextId`. -/
def createStory (db : DB) (now : Nat) (input : StoryInput) (coverImageUrl : Option String) :
    Story × DB :=
  let s : Story :=
    { title := input.title
      description := input.description.getD ""
      coverImage := coverImageUrl
      chapters := 0
      createdAt := now
      updatedAt := now
      authorId := "admin"
      category := input.category.getD "Original"
      status := input.status.getD "Draft" }
  (s, { db with stories := db.stories ++ [(db.nextId, s)], nextId := db.nextId + 1 })

/-- Partial story changes passed to updateStory. -/
structure StoryUpdate where
  title : Option String := none
  description : Option String := none
  category : Option String := none
  status : Option String := none
  coverImage : Option String := none
deriving DecidableEq

/-- storyService.js `updateStory`: merge the changes, always overwrite
`coverImage` with the resolved URL and `updatedAt` with the server time;
`updateDoc` fails when the story is missing; afterwards the story is
re-read. -/
def updateStory (db : DB) (now : Nat) (storyId : Nat) (upd : StoryUpdate) :
    Except String (Story × DB) :=
  match getDocData db.stories storyId with
  | none => Except.error "Failed to update story: No document to update"
  | some s =>
    let s2 : Story :=
      { s with
        title := upd.title.getD s.title
        description := upd.description.getD s.description
        category := upd.category.getD s.category
        status := upd.status.getD s.status
        coverImage := upd.coverImage
        updatedAt := now }
    let db2 : DB := { db with stories := setDocData db.stories storyId s2 }
    match getDocData db2.stories storyId with
    | some s3 => Except.ok (s3, db2)
    | none => Except.error "Failed to update story: Story not found"

/-! ### Derived notions the specification speaks about -/

/-- The live number of chapter documents whose `storyId` references the story. -/
def liveChapterCount (db : DB) (sid : Nat) : Nat :=
  (db.chapters.filter fun p => p.2.storyId == sid).length

/-- The stored chapter-count field of every story document equals the live
number of chapter documents referencing it. -/
def chapterCountConsistent (db : DB) : Prop :=
  ∀ p ∈ db.stories, p.2.chapters = liveChapterCount db p.1

/-- Store sanity delivered by `addDoc`: chapter document ids are pairwise
distinct and below the fresh-id counter. -/
def chapterKeysWellFormed (db : DB) : Prop :=
  (db.chapters.map Prod.fst).Nodup ∧ ∀ k ∈ db.chapters.map Prod.fst, k < db.nextId

/-- The mutating operations the two services expose, for store-wide invariants. -/
inductive Op where
  | opCreateChapter (input : ChapterInput) : Op
  | opUpdateChapter (chapterId : Nat) (upd : UpdateData) : Op
  | opDeleteChapter (chapterId : Nat) : Op
  | opDeleteStory (storyId : Nat) : Op
  | opCreateStory (input : StoryInput) (coverImageUrl : Option String) : Op
  | opUpdateStory (storyId : Nat) (upd : StoryUpdate) : Op
  | opUpdateStoryChapterCount (storyId : Nat) (count : Nat) : Op
  | opPublishChapters (chapterIds : List Nat) : Op
  | opReorderChapters (orders : List (Nat × Nat)) : Op

/-- The store after running one operation at server time `now`.  An aborted
transaction or a failed plain write leaves the store as it was; createChapter
and updateChapter already thread their partially-mutated store themselves. -/
def runOp (db : DB) (now : Nat) : Op → DB
  | .opCreateChapter input => (createChapter db now input).2
  | .opUpdateChapter cid upd => (updateChapter db now cid upd).2
  | .opDeleteChapter cid =>
    match deleteChapter db cid with
    | Except.ok db2 => db2
    | Except.error _ => db
  | .opDeleteStory sid => deleteStory db sid
  | .opCreateStory input url => (createStory db now input url).2
  | .opUpdateStory sid upd =>
    match updateStory db now sid upd with
    | Except.ok r => r.2
    | Except.error _ => db
  | .opUpdateStoryChapterCount sid n =>
    match updateStoryChapterCount db sid n with
    | Except.ok db2 => db2
    | Except.error _ => db
  | .opPublishChapters ids =>
    match publishChapters db now ids with
    | Except.ok db2 => db2
    | Except.error _ => db
  | .opReorderChapters os =>
    match reorderChapters db now os with
    | Except.ok db2 => db2
    | Except.error _ => db

/-- The operations after which the code sets the `updatedAt` of story `sid`:
a direct story edit, a createChapter of a published chapter for it, or an
updateChapter moving one of its chapters into `published` from another status.
This is the claimed publish-relevant class MINUS the bulk `publishChapters`
operation, which the code deliberately leaves out. -/
def storyTouchingOp (db : DB) (sid : Nat) : Op → Bool
  | .opCreateChapter input => input.storyId == sid && input.status == "published"
  | .opUpdateChapter cid upd =>
    match getDocData db.chapters cid with
    | some ch => ch.storyId == sid && upd.status == some "published" && ch.status != "published"
    | none => false
  | .opUpdateStory sid2 _ => sid2 == sid
  | _ => false

/-- A chapter-collection mutation: one CreateChapter or one DeleteChapter call
run to completion, its suppressed count follow-up included. -/
inductive ChapterMutation where
  | createMut (now : Nat) (input : ChapterInput) : ChapterMutation
  | deleteMut (chapterId : Nat) : ChapterMutation

/-- Run one chapter mutation (a failed DeleteChapter leaves the store as it
was; a failed CreateChapter already returns its partially-mutated store). -/
def runChapterMutation (db : DB) : ChapterMutation → DB
  | .createMut now input => (createChapter db now input).2
  | .deleteMut cid =>
    match deleteChapter db cid with
    | Except.ok db2 => db2
    | Except.error _ => db

/-- Run a sequence of CreateChapter/DeleteChapter calls to completion. -/
def runChapterMutations (db : DB) (ops : List ChapterMutation) : DB :=
  ops.foldl runChapterMutation db

/-! ### Concrete sample documents and stores for evaluation -/

/-- A sample story document with stored chapter count `cnt` and updatedAt `u`. -/
def storyDoc (cnt u : Nat) : Story :=
  { title := "S", description := "", category := "Original", status := "draft",
    coverImage := none, chapters := cnt, createdAt := 1, updatedAt := u, authorId := "admin" }

/-- A sample chapter document. -/
def chapterDoc (sid num : Nat) (content status : String) (wc u : Nat) : Chapter :=
  { storyId := sid, chapterNumber := num, title := "Ch", content := content,
    status := status, createdAt := 1, updatedAt := u, wordCount := wc, authorId := "admin" }

/-- One story (id 0), no chapters. -/
def dbOneStory : DB :=
  { chapters := [], stories := [(0, storyDoc 0 5)], storyEdits := [], nextId := 1 }

/-- One story (id 0) with one draft chapter (id 1, content "hello world"). -/
def dbStoryDraftCh : DB :=
  { chapters := [(1, chapterDoc 0 1 "hello world" "draft" 2 3)],
    stories := [(0, storyDoc 1 5)], storyEdits := [], nextId := 2 }

/-- One story (id 0) with chapters numbered 1, 2 and 4. -/
def dbThreeCh : DB :=
  { chapters := [(1, chapterDoc 0 1 "a" "draft" 1 3), (2, chapterDoc 0 2 "a" "draft" 1 3),
                 (3, chapterDoc 0 4 "a" "draft" 1 3)],
    stories := [(0, storyDoc 3 5)], storyEdits := [], nextId := 4 }

/-- A chapter (id 1) whose parent story (id 7) is missing from the store. -/
def dbOrphanCh : DB :=
  { chapters := [(1, chapterDoc 7 1 "x" "draft" 1 3)], stories := [], storyEdits := [], nextId := 2 }

/-- Sample createChapter input for story 0 with the given status. -/
def sampleInput (status : String) : ChapterInput :=
  { storyId := 0, chapterNumber := 1, title := "T", content := "hello world", status := status }

/-- Sample createChapter input for the missing story 7. -/
def orphanInput : ChapterInput :=
  { storyId := 7, chapterNumber := 1, title := "T", content := "hello world", status := "draft" }

/-! ### Association-list toolkit -/

theorem getDocData_nil {α : Type} (k : Nat) : getDocData ([] : List (Nat × α)) k = none := rfl

theorem getDocData_cons {α : Type} (k1 : Nat) (v1 : α) (rest : List (Nat × α)) (k : Nat) :
    getDocData ((k1, v1) :: rest) k = if k1 = k then some v1 else getDocData rest k := rfl

theorem setDocData_nil {α : Type} (k : Nat) (v : α) :
    setDocData ([] : List (Nat × α)) k v = [] := rfl

theorem setDocData_cons {α : Type} (k1 : Nat) (v1 : α) (rest : List (Nat × α)) (k : Nat) (v : α) :
    setDocData ((k1, v1) :: rest) k v =
      (if k1 = k then (k, v) else (k1, v1)) :: setDocData rest k v := rfl

theorem removeDoc_nil {α : Type} (k : Nat) : removeDoc ([] : List (Nat × α)) k = [] := rfl

theorem removeDoc_cons {α : Type} (k1 : Nat) (v1 : α) (rest : List (Nat × α)) (k : Nat) :
    removeDoc ((k1, v1) :: rest) k =
      if k1 = k then removeDoc rest k else (k1, v1) :: removeDoc rest k := by
  by_cases hk : k1 = k <;> simp [removeDoc, List.filter_cons, hk]

theorem getDocData_eq_none_iff {α : Type} (l : List (Nat × α)) (k : Nat) :
    getDocData l k = none ↔ ∀ p ∈ l, p.1 ≠ k := by
  induction l with
  | nil => simp [getDocData_nil]
  | cons q rest ih =>
    obtain ⟨k1, v1⟩ := q
    rw [getDocData_cons]
    by_cases hk : k1 = k
    · subst hk
      simp
    · simp [hk, ih]

theorem getDocData_append_left {α : Type} {l1 l2 : List (Nat × α)} {k : Nat} {v : α}
    (h : getDocData l1 k = some v) : getDocData (l1 ++ l2) k = some v := by
  induction l1 with
  | nil => simp [getDocData_nil] at h
  | cons q rest ih =>
    obtain ⟨k1, v1⟩ := q
    rw [getDocData_cons] at h
    rw [List.cons_append, getDocData_cons]
    by_cases hk : k1 = k
    · simpa [hk] using h
    · rw [if_neg hk] at h ⊢
      exact ih h

theorem getDocData_append_right {α : Type} {l1 : List (Nat × α)} (l2 : List (Nat × α))
    {k : Nat} (h : getDocData l1 k = none) :
    getDocData (l1 ++ l2) k = getDocData l2 k := by
  induction l1 with
  | nil => simp
  | cons q rest ih =>
    obtain ⟨k1, v1⟩ := q
    rw [getDocData_cons] at h
    rw [List.cons_append, getDocData_cons]
    by_cases hk : k1 = k
    · rw [if_pos hk] at h
      exact absurd h (by simp)
    · rw [if_neg hk] at h ⊢
      exact ih h

theorem getDocData_setDocData_self {α : Type} (l : List (Nat × α)) (k : Nat) (v : α) :
    getDocData (setDocData l k v) k = (getDocData l k).map fun _ => v := by
  induction l with
  | nil => simp [getDocData_nil, setDocData_nil]
  | cons q rest ih =>
    obtain ⟨k1, v1⟩ := q
    rw [setDocData_cons]
    by_cases hk : k1 = k
    · rw [if_pos hk, getDocData_cons, getDocData_cons, if_pos hk, if_pos rfl]
      simp
    · rw [if_neg hk, getDocData_cons, getDocData_cons, if_neg hk, if_neg hk]
      exact ih

theorem getDocData_setDocData_ne {α : Type} (l : List (Nat × α)) {k k2 : Nat} (v : α)
    (h : k2 ≠ k) : getDocData (setDocData l k v) k2 = getDocData l k2 := by
  induction l with
  | nil => simp [getDocData_nil, setDocData_nil]
  | cons q rest ih =>
    obtain ⟨k1, v1⟩ := q
    rw [setDocData_cons]
    by_cases hk : k1 = k
    · rw [if_pos hk, getDocData_cons, getDocData_cons, if_neg (Ne.symm h),
        if_neg (by rw [hk]; exact Ne.symm h)]
      exact ih
    · rw [if_neg hk, getDocData_cons, getDocData_cons]
      by_cases hk2 : k1 = k2
      · rw [if_pos hk2, if_pos hk2]
      · rw [if_neg hk2, if_neg hk2]
        exact ih

theorem getDocData_removeDoc_self {α : Type} (l : List (Nat × α)) (k : Nat) :
    getDocData (removeDoc l k) k = none := by
  induction l with
  | nil => simp [getDocData_nil, removeDoc_nil]
  | cons q rest ih =>
    obtain ⟨k1, v1⟩ := q
    rw [removeDoc_cons]
    by_cases hk : k1 = k
    · rw [if_pos hk]
      exact ih
    · rw [if_neg hk, getDocData_cons, if_neg hk]
      exact ih

theorem getDocData_removeDoc_ne {α : Type} (l : List (Nat × α)) {k k2 : Nat}
    (h : k2 ≠ k) : getDocData (removeDoc l k) k2 = getDocData l k2 := by
  induction l with
  | nil => simp [getDocData_nil, removeDoc_nil]
  | cons q rest ih =>
    obtain ⟨k1, v1⟩ := q
    rw [removeDoc_cons]
    by_cases hk : k1 = k
    · rw [if_pos hk, getDocData_cons, if_neg (by rw [hk]; exact Ne.symm h)]
      exact ih
    · rw [if_neg hk, getDocData_cons, getDocData_cons]
      by_cases hk2 : k1 = k2
      · rw [if_pos hk2, if_pos hk2]
      · rw [if_neg hk2, if_neg hk2]
        exact ih

theorem removeDoc_of_absent {α : Type} {l : List (Nat × α)} {k : Nat}
    (h : ∀ p ∈ l, p.1 ≠ k) : removeDoc l k = l := by
  unfold removeDoc
  rw [List.filter_eq_self]
  intro p hp
  simpa using h p hp

theorem mem_setDocData {α : Type} {l : List (Nat × α)} {k : Nat} {v : α} {p : Nat × α}
    (h : p ∈ setDocData l k v) : p = (k, v) ∨ (p ∈ l ∧ p.1 ≠ k) := by
  unfold setDocData at h
  rcases List.mem_map.mp h with ⟨q, hq, hfq⟩
  by_cases hk : q.1 = k
  · left
    rw [if_pos hk] at hfq
    exact hfq.symm
  · right
    rw [if_neg hk] at hfq
    subst hfq
    exact ⟨hq, hk⟩

theorem mem_removeDoc {α : Type} {l : List (Nat × α)} {k : Nat} {p : Nat × α} :
    p ∈ removeDoc l k ↔ p ∈ l ∧ p.1 ≠ k := by
  unfold removeDoc
  simp [List.mem_filter]

/-! ### Characterization of the helper writes -/

theorem countForStory_absent {db : DB} {sid : Nat}
    (h : getDocData db.stories sid = none) :
    updateStoryChapterCountForStory db sid = db := by
  unfold updateStoryChapterCountForStory updateStoryChapterCount
  rw [h]

theorem countForStory_present {db : DB} {sid : Nat} {s : Story}
    (h : getDocData db.stories sid = some s) :
    updateStoryChapterCountForStory db sid =
      { db with stories :=
          setDocData db.stories sid { s with chapters := (getChaptersByStory db sid).length } } := by
  unfold updateStoryChapterCountForStory updateStoryChapterCount
  rw [h]

theorem count_chapters_eq (db : DB) (sid : Nat) :
    (updateStoryChapterCountForStory db sid).chapters = db.chapters := by
  cases h : getDocData db.stories sid with
  | none => rw [countForStory_absent h]
  | some s => rw [countForStory_present h]

theorem count_storyEdits_eq (db : DB) (sid : Nat) :
    (updateStoryChapterCountForStory db sid).storyEdits = db.storyEdits := by
  cases h : getDocData db.stories sid with
  | none => rw [countForStory_absent h]
  | some s => rw [countForStory_present h]

theorem count_nextId_eq (db : DB) (sid : Nat) :
    (updateStoryChapterCountForStory db sid).nextId = db.nextId := by
  cases h : getDocData db.stories sid with
  | none => rw [countForStory_absent h]
  | some s => rw [countForStory_present h]

theorem count_stories_lookup (db : DB) (sid sid2 : Nat) :
    getDocData (updateStoryChapterCountForStory db sid).stories sid2 =
      (getDocData db.stories sid2).map
        (fun s => if sid = sid2 then
            { s with chapters := (getChaptersByStory db sid).length } else s) := by
  cases h : getDocData db.stories sid with
  | none =>
    rw [countForStory_absent h]
    by_cases he : sid = sid2
    · subst he
      rw [h]
      rfl
    · cases h2 : getDocData db.stories sid2 <;> simp [he]
  | some s =>
    rw [countForStory_present h]
    dsimp only
    by_cases he : sid = sid2
    · subst he
      rw [getDocData_setDocData_self, h]
      simp
    · rw [getDocData_setDocData_ne _ _ (fun hx => he hx.symm)]
      cases getDocData db.stories sid2 <;> simp [he]

theorem count_stories_updatedAt (db : DB) (sid sid2 : Nat) :
    (getDocData (updateStoryChapterCountForStory db sid).stories sid2).map Story.updatedAt =
      (getDocData db.stories sid2).map Story.updatedAt := by
  rw [count_stories_lookup]
  cases getDocData db.stories sid2 with
  | none => rfl
  | some s =>
    by_cases he : sid = sid2 <;> simp [he]

theorem touchStoryUpdatedAt_ok (db : DB) (sid now : Nat) (s : Story)
    (h : getDocData db.stories sid = some s) :
    touchStoryUpdatedAt db sid now =
      Except.ok { db with stories := setDocData db.stories sid { s with updatedAt := now } } := by
  unfold touchStoryUpdatedAt
  rw [h]

theorem touchStoryUpdatedAt_error (db : DB) (sid now : Nat)
    (h : getDocData db.stories sid = none) :
    touchStoryUpdatedAt db sid now = Except.error "No document to update" := by
  unfold touchStoryUpdatedAt
  rw [h]

theorem mem_getChaptersByStory {db : DB} {sid : Nat} {p : Nat × Chapter} :
    p ∈ getChaptersByStory db sid ↔ p ∈ db.chapters ∧ p.2.storyId = sid := by
  unfold getChaptersByStory
  rw [List.mem_insertionSort, List.mem_filter]
  simp

theorem length_getChaptersByStory (db : DB) (sid : Nat) :
    (getChaptersByStory db sid).length = liveChapterCount db sid := by
  unfold getChaptersByStory liveChapterCount
  rw [List.length_insertionSort]
  apply congrArg
  apply List.filter_congr
  intro p _
  simp

theorem touch_ok_parts {db db2 : DB} {sid now : Nat}
    (h : touchStoryUpdatedAt db sid now = Except.ok db2) :
    ∃ s, getDocData db.stories sid = some s ∧
      db2 = { db with stories := setDocData db.stories sid { s with updatedAt := now } } := by
  cases hg : getDocData db.stories sid with
  | none => rw [touchStoryUpdatedAt_error db sid now hg] at h; cases h
  | some s =>
    rw [touchStoryUpdatedAt_ok db sid now s hg] at h
    injection h with h2
    exact ⟨s, rfl, h2.symm⟩

theorem touch_error_none {db : DB} {sid now : Nat} {e : String}
    (h : touchStoryUpdatedAt db sid now = Except.error e) :
    getDocData db.stories sid = none := by
  cases hg : getDocData db.stories sid with
  | none => rfl
  | some s => rw [touchStoryUpdatedAt_ok db sid now s hg] at h; cases h

/-! ### Characterization of createChapter -/

theorem createChapter_chapters (db : DB) (now : Nat) (input : ChapterInput) :
    (createChapter db now input).2.chapters =
      db.chapters ++ [(db.nextId, chapterToCreate now input)] := by
  unfold createChapter
  dsimp only
  split
  · split
    · rename_i db3 heq
      obtain ⟨s, hs, rfl⟩ := touch_ok_parts heq
      dsimp only
      rw [count_chapters_eq]
    · dsimp only
      rw [count_chapters_eq]
  · dsimp only
    rw [count_chapters_eq]

theorem createChapter_nextId (db : DB) (now : Nat) (input : ChapterInput) :
    (createChapter db now input).2.nextId = db.nextId + 1 := by
  unfold createChapter
  dsimp only
  split
  · split
    · rename_i db3 heq
      obtain ⟨s, hs, rfl⟩ := touch_ok_parts heq
      dsimp only
      rw [count_nextId_eq]
    · dsimp only
      rw [count_nextId_eq]
  · dsimp only
    rw [count_nextId_eq]

theorem createChapter_story_updatedAt (db : DB) (now : Nat) (input : ChapterInput)
    (sid : Nat) (s : Story) (hs : getDocData db.stories sid = some s) :
    (getDocData (createChapter db now input).2.stories sid).map Story.updatedAt =
      some (if input.storyId == sid && input.status == "published" then now
            else s.updatedAt) := by
  unfold createChapter
  dsimp only
  split
  · rename_i hp
    split
    · rename_i db3 heq
      obtain ⟨s2, hs2, rfl⟩ := touch_ok_parts heq
      dsimp only
      by_cases he : input.storyId = sid
      · subst he
        rw [getDocData_setDocData_self, hs2]
        simp [hp, beq_iff_eq]
      · rw [getDocData_setDocData_ne _ _ (fun hx => he hx.symm)]
        rw [count_stories_updatedAt]
        dsimp only
        rw [hs]
        simp [Bool.and_eq_true, beq_iff_eq, he]
    · rename_i e heq
      have hnone := touch_error_none heq
      by_cases he : input.storyId = sid
      · exfalso
        rw [count_stories_lookup] at hnone
        dsimp only at hnone
        rw [he, hs] at hnone
        simp at hnone
      · rw [count_stories_updatedAt]
        dsimp only
        rw [hs]
        simp [Bool.and_eq_true, beq_iff_eq, he]
  · rename_i hp
    rw [count_stories_updatedAt]
    dsimp only
    rw [hs]
    simp [Bool.and_eq_true, beq_iff_eq, hp]

/-! ### Characterization of updateChapter -/

theorem updateChapter_notFound {db : DB} {now cid : Nat} {upd : UpdateData}
    (hch : getDocData db.chapters cid = none) :
    updateChapter db now cid upd =
      (Except.error "Failed to update chapter: Chapter not found", db) := by
  unfold updateChapter
  rw [hch]

theorem updateChapter_noTouch {db : DB} {now cid : Nat} {upd : UpdateData} {ch : Chapter}
    (hch : getDocData db.chapters cid = some ch)
    (hcond : ¬(upd.status = some "published" ∧ ch.status ≠ "published")) :
    updateChapter db now cid upd =
      (Except.ok (applyChapterUpdate ch upd now),
       if contentTruthy upd then
         { db with
           chapters := setDocData db.chapters cid (applyChapterUpdate ch upd now),
           storyEdits := db.storyEdits ++ [{ storyId := ch.storyId, chapterId := cid, editedAt := now }] }
       else
         { db with chapters := setDocData db.chapters cid (applyChapterUpdate ch upd now) }) := by
  unfold updateChapter
  rw [hch]
  dsimp only
  rw [if_neg hcond]
  dsimp only
  have hread : getDocData (setDocData db.chapters cid (applyChapterUpdate ch upd now)) cid
      = some (applyChapterUpdate ch upd now) := by
    rw [getDocData_setDocData_self, hch]
    rfl
  by_cases hct : contentTruthy upd
  · rw [if_pos hct]
    unfold getChapterById
    dsimp only
    rw [hread]
  · rw [if_neg hct]
    unfold getChapterById
    dsimp only
    rw [hread]

theorem updateChapter_touch_ok {db : DB} {now cid : Nat} {upd : UpdateData} {ch : Chapter}
    {s : Story}
    (hch : getDocData db.chapters cid = some ch)
    (hcond : upd.status = some "published" ∧ ch.status ≠ "published")
    (hs : getDocData db.stories ch.storyId = some s) :
    updateChapter db now cid upd =
      (Except.ok (applyChapterUpdate ch upd now),
       if contentTruthy upd then
         { db with
           chapters := setDocData db.chapters cid (applyChapterUpdate ch upd now),
           stories := setDocData db.stories ch.storyId { s with updatedAt := now },
           storyEdits := db.storyEdits ++ [{ storyId := ch.storyId, chapterId := cid, editedAt := now }] }
       else
         { db with
           chapters := setDocData db.chapters cid (applyChapterUpdate ch upd now),
           stories := setDocData db.stories ch.storyId { s with updatedAt := now } }) := by
  unfold updateChapter
  rw [hch]
  dsimp only
  rw [if_pos hcond]
  rw [touchStoryUpdatedAt_ok
    { chapters := setDocData db.chapters cid (applyChapterUpdate ch upd now),
      stories := db.stories, storyEdits := db.storyEdits, nextId := db.nextId }
    ch.storyId now s hs]
  dsimp only
  have hread : getDocData (setDocData db.chapters cid (applyChapterUpdate ch upd now)) cid
      = some (applyChapterUpdate ch upd now) := by
    rw [getDocData_setDocData_self, hch]
    rfl
  by_cases hct : contentTruthy upd
  · rw [if_pos hct]
    unfold getChapterById
    dsimp only
    rw [hread]
  · rw [if_neg hct]
    unfold getChapterById
    dsimp only
    rw [hread]

theorem updateChapter_touch_missing {db : DB} {now cid : Nat} {upd : UpdateData} {ch : Chapter}
    (hch : getDocData db.chapters cid = some ch)
    (hcond : upd.status = some "published" ∧ ch.status ≠ "published")
    (hs : getDocData db.stories ch.storyId = none) :
    updateChapter db now cid upd =
      (Except.error "Failed to update chapter: No document to update", db) := by
  unfold updateChapter
  rw [hch]
  dsimp only
  rw [if_pos hcond]
  rw [touchStoryUpdatedAt_error
    { chapters := setDocData db.chapters cid (applyChapterUpdate ch upd now),
      stories := db.stories, storyEdits := db.storyEdits, nextId := db.nextId }
    ch.storyId now hs]
  rfl

theorem updateChapter_story_updatedAt (db : DB) (now cid : Nat) (upd : UpdateData)
    (ch : Chapter) (sid : Nat) (s : Story)
    (hch : getDocData db.chapters cid = some ch)
    (hs : getDocData db.stories sid = some s) :
    (getDocData (updateChapter db now cid upd).2.stories sid).map Story.updatedAt =
      some (if ch.storyId == sid && upd.status == some "published" && ch.status != "published"
            then now else s.updatedAt) := by
  by_cases hcond : upd.status = some "published" ∧ ch.status ≠ "published"
  · by_cases he : ch.storyId = sid
    · subst he
      rw [updateChapter_touch_ok hch hcond hs]
      dsimp only
      by_cases hct : contentTruthy upd
      · rw [if_pos hct]
        dsimp only
        rw [getDocData_setDocData_self, hs]
        simp [hcond.1, hcond.2]
      · rw [if_neg hct]
        dsimp only
        rw [getDocData_setDocData_self, hs]
        simp [hcond.1, hcond.2]
    · cases hsx : getDocData db.stories ch.storyId with
      | some s2 =>
        rw [updateChapter_touch_ok hch hcond hsx]
        dsimp only
        by_cases hct : contentTruthy upd
        · rw [if_pos hct]
          dsimp only
          rw [getDocData_setDocData_ne _ _ (fun hx => he hx.symm), hs]
          simp [he]
        · rw [if_neg hct]
          dsimp only
          rw [getDocData_setDocData_ne _ _ (fun hx => he hx.symm), hs]
          simp [he]
      | none =>
        rw [updateChapter_touch_missing hch hcond hsx]
        dsimp only
        rw [hs]
        simp [he]
  · rw [updateChapter_noTouch hch hcond]
    have hcondb : (ch.storyId == sid && upd.status == some "published" &&
        ch.status != "published") = false := by
      rcases not_and_or.mp hcond with hy | hz
      · have hy2 : (upd.status == some "published") = false := by
          simpa using hy
        simp [hy2]
      · have hz2 : ch.status = "published" := not_not.mp hz
        simp [hz2]
    rw [hcondb]
    dsimp only
    by_cases hct : contentTruthy upd
    · rw [if_pos hct]
      dsimp only
      rw [hs]
      simp
    · rw [if_neg hct]
      dsimp only
      rw [hs]
      simp

theorem updateChapter_ok_parts {db db2 : DB} {now cid : Nat} {upd : UpdateData}
    {ch c : Chapter}
    (hch : getDocData db.chapters cid = some ch)
    (h : updateChapter db now cid upd = (Except.ok c, db2)) :
    c = applyChapterUpdate ch upd now ∧
    db2.chapters = setDocData db.chapters cid (applyChapterUpdate ch upd now) ∧
    db2.storyEdits =
      (if contentTruthy upd then
        db.storyEdits ++ [{ storyId := ch.storyId, chapterId := cid, editedAt := now }]
      else db.storyEdits) := by
  by_cases hcond : upd.status = some "published" ∧ ch.status ≠ "published"
  · cases hsx : getDocData db.stories ch.storyId with
    | none =>
      rw [updateChapter_touch_missing hch hcond hsx] at h
      rw [Prod.mk.injEq] at h
      cases h.1
    | some s =>
      rw [updateChapter_touch_ok hch hcond hsx] at h
      rw [Prod.mk.injEq] at h
      obtain ⟨hc, hdb⟩ := h
      injection hc with hc
      subst hc
      subst hdb
      by_cases hct : contentTruthy upd
      · simp [hct]
      · simp [hct]
  · rw [updateChapter_noTouch hch hcond] at h
    rw [Prod.mk.injEq] at h
    obtain ⟨hc, hdb⟩ := h
    injection hc with hc
    subst hc
    subst hdb
    by_cases hct : contentTruthy upd
    · simp [hct]
    · simp [hct]

theorem createChapter_stored (db : DB) (now : Nat) (input : ChapterInput)
    (hfresh : getDocData db.chapters db.nextId = none) :
    getDocData (createChapter db now input).2.chapters db.nextId =
      some (chapterToCreate now input) := by
  rw [createChapter_chapters, getDocData_append_right _ hfresh]
  rw [getDocData_cons, if_pos rfl]

/-! ### Claim theorems -/

/-- C1: for every createChapter run against an existing parent story, and for
every updateChapter of an existing chapter whose parent story exists (which
covers every successful update that can consult its story), the story's
`updatedAt` is set to the current server time exactly when the operation
writes the chapter with status `published` while its prior status (for
updates; a created chapter has no prior status) was not `published`; in every
other case — draft creation, an edit that stays draft, an edit of an
already-published chapter, or a chapter leaving `published` — the story's
`updatedAt` keeps its old value. -/
theorem chapter_publish_sets_story_updatedAt :
    (∀ (db : DB) (now : Nat) (input : ChapterInput) (s : Story),
      getDocData db.stories input.storyId = some s →
      (getDocData (createChapter db now input).2.stories input.storyId).map Story.updatedAt =
        some (if input.status == "published" then now else s.updatedAt)) ∧
    (∀ (db : DB) (now cid : Nat) (upd : UpdateData) (ch : Chapter) (s : Story),
      getDocData db.chapters cid = some ch →
      getDocData db.stories ch.storyId = some s →
      (getDocData (updateChapter db now cid upd).2.stories ch.storyId).map Story.updatedAt =
        some (if upd.status == some "published" && ch.status != "published" then now
              else s.updatedAt)) := by
  constructor
  · intro db now input s hs
    rw [createChapter_story_updatedAt db now input input.storyId s hs]
    simp
  · intro db now cid upd ch s hch hs
    rw [updateChapter_story_updatedAt db now cid upd ch ch.storyId s hch hs]
    simp

/-- Concrete run of C1: creating a published chapter at time 10 sets the
story's updatedAt to 10; publishing a draft chapter by update at time 20 sets
it to 20. -/
theorem chapter_publish_sets_story_updatedAt_witness :
    (getDocData (createChapter dbOneStory 10 (sampleInput "published")).2.stories 0).map
        Story.updatedAt = some 10 ∧
    (getDocData (updateChapter dbStoryDraftCh 20 1
        { status := some "published" }).2.stories 0).map Story.updatedAt = some 20 := by
  constructor
  · have h := chapter_publish_sets_story_updatedAt.1 dbOneStory 10 (sampleInput "published")
      (storyDoc 0 5) (by decide)
    simpa [sampleInput] using h
  · have h := chapter_publish_sets_story_updatedAt.2 dbStoryDraftCh 20 1
      { status := some "published" } (chapterDoc 0 1 "hello world" "draft" 2 3)
      (storyDoc 1 5) (by decide) (by decide)
    simpa [chapterDoc] using h

/-- C4: updateChapter on a chapter id that resolves to no document fails with
the `Chapter not found` error, and the returned store is the input store
unchanged — the transaction performed zero writes to the chapters collection,
the stories collection and the edit log. -/
theorem updateChapter_missing_no_writes (db : DB) (now cid : Nat) (upd : UpdateData)
    (h : getDocData db.chapters cid = none) :
    updateChapter db now cid upd =
      (Except.error "Failed to update chapter: Chapter not found", db) :=
  updateChapter_notFound h

/-- Concrete run of C4 on an empty chapter collection. -/
theorem updateChapter_missing_no_writes_witness :
    updateChapter dbOneStory 10 99 { title := some "x" } =
      (Except.error "Failed to update chapter: Chapter not found", dbOneStory) :=
  updateChapter_missing_no_writes dbOneStory 10 99 { title := some "x" } (by decide)

/-- C5: a successful updateChapter whose changes carry non-empty content
appends exactly one edit-log entry, whose storyId and chapterId are those of
the updated chapter and whose timestamp is the transaction's commit time; a
successful updateChapter whose changes carry no content field appends none.
The entry is written by the same transaction that writes the chapter. -/
theorem updateChapter_edit_log (db db2 : DB) (now cid : Nat) (upd : UpdateData)
    (ch c : Chapter)
    (hch : getDocData db.chapters cid = some ch)
    (h : updateChapter db now cid upd = (Except.ok c, db2)) :
    (∀ content, upd.content = some content → content ≠ "" →
      db2.storyEdits = db.storyEdits ++
        [{ storyId := ch.storyId, chapterId := cid, editedAt := now }]) ∧
    (upd.content = none → db2.storyEdits = db.storyEdits) := by
  obtain ⟨_, _, hse⟩ := updateChapter_ok_parts hch h
  constructor
  · intro content hc hne
    have hct : contentTruthy upd = true := by
      simp [contentTruthy, hc, hne]
    rw [hse, if_pos hct]
  · intro hc
    have hct : ¬ contentTruthy upd = true := by
      simp [contentTruthy, hc]
    rw [hse, if_neg hct]

/-- Concrete run of C5: a content edit at time 20 appends the one matching
entry; a title-only edit appends nothing. -/
theorem updateChapter_edit_log_witness :
    (updateChapter dbStoryDraftCh 20 1 { content := some "new text" }).2.storyEdits =
      dbStoryDraftCh.storyEdits ++ [{ storyId := 0, chapterId := 1, editedAt := 20 }] ∧
    (updateChapter dbStoryDraftCh 21 1 { title := some "T2" }).2.storyEdits =
      dbStoryDraftCh.storyEdits := by
  constructor
  · have h := (updateChapter_edit_log dbStoryDraftCh
      (updateChapter dbStoryDraftCh 20 1 { content := some "new text" }).2 20 1
      { content := some "new text" } (chapterDoc 0 1 "hello world" "draft" 2 3)
      (applyChapterUpdate (chapterDoc 0 1 "hello world" "draft" 2 3)
        { content := some "new text" } 20)
      (by decide) (by rfl)).1 "new text" rfl (by decide)
    simpa using h
  · have h := (updateChapter_edit_log dbStoryDraftCh
      (updateChapter dbStoryDraftCh 21 1 { title := some "T2" }).2 21 1
      { title := some "T2" } (chapterDoc 0 1 "hello world" "draft" 2 3)
      (applyChapterUpdate (chapterDoc 0 1 "hello world" "draft" 2 3)
        { title := some "T2" } 21)
      (by decide) (by rfl)).2 rfl
    simpa using h

/-- C10: after a successful updateChapter the stored chapter is the merge of
the old one with the supplied changes: createdAt, storyId and authorId are
never written; each of title, content, chapterNumber and status keeps its
prior value when absent from the changes and takes the supplied value when
present; updatedAt is always set to the commit time; wordCount is rewritten
only for truthy content (and in particular keeps its prior value when the
changes set content to the empty string). -/
theorem updateChapter_preserves_unlisted_fields (db db2 : DB) (now cid : Nat)
    (upd : UpdateData) (ch c : Chapter)
    (hch : getDocData db.chapters cid = some ch)
    (h : updateChapter db now cid upd = (Except.ok c, db2)) :
    getDocData db2.chapters cid = some c ∧
    c.createdAt = ch.createdAt ∧ c.storyId = ch.storyId ∧ c.authorId = ch.authorId ∧
    c.updatedAt = now ∧
    (upd.title = none → c.title = ch.title) ∧
    (∀ x, upd.title = some x → c.title = x) ∧
    (upd.content = none → c.content = ch.content ∧ c.wordCount = ch.wordCount) ∧
    (∀ x, upd.content = some x → c.content = x) ∧
    (upd.content = some "" → c.wordCount = ch.wordCount) ∧
    (upd.chapterNumber = none → c.chapterNumber = ch.chapterNumber) ∧
    (∀ x, upd.chapterNumber = some x → c.chapterNumber = x) ∧
    (upd.status = none → c.status = ch.status) ∧
    (∀ x, upd.status = some x → c.status = x) := by
  obtain ⟨hc, hchs, _⟩ := updateChapter_ok_parts hch h
  subst hc
  refine ⟨?_, rfl, rfl, rfl, rfl, ?_, ?_, ?_, ?_, ?_, ?_, ?_, ?_, ?_⟩
  · rw [hchs, getDocData_setDocData_self, hch]
    rfl
  · intro ht
    simp [applyChapterUpdate, ht]
  · intro x ht
    simp [applyChapterUpdate, ht]
  · intro ht
    constructor
    · simp [applyChapterUpdate, ht]
    · simp [applyChapterUpdate, contentTruthy, ht]
  · intro x ht
    simp [applyChapterUpdate, ht]
  · intro ht
    simp [applyChapterUpdate, contentTruthy, ht]
  · intro ht
    simp [applyChapterUpdate, ht]
  · intro x ht
    simp [applyChapterUpdate, ht]
  · intro ht
    simp [applyChapterUpdate, ht]
  · intro x ht
    simp [applyChapterUpdate, ht]

/-- Concrete run of C10: a title-only edit at time 20 stores the merged
chapter and leaves content, createdAt, storyId, status and wordCount at their
prior values while the title takes the supplied value. -/
theorem updateChapter_preserves_unlisted_fields_witness :
    getDocData (updateChapter dbStoryDraftCh 20 1 { title := some "T2" }).2.chapters 1 =
      some (applyChapterUpdate (chapterDoc 0 1 "hello world" "draft" 2 3)
        { title := some "T2" } 20) ∧
    (applyChapterUpdate (chapterDoc 0 1 "hello world" "draft" 2 3)
      { title := some "T2" } 20).content = "hello world" ∧
    (applyChapterUpdate (chapterDoc 0 1 "hello world" "draft" 2 3)
      { title := some "T2" } 20).wordCount = 2 ∧
    (applyChapterUpdate (chapterDoc 0 1 "hello world" "draft" 2 3)
      { title := some "T2" } 20).title = "T2" := by
  have h := updateChapter_preserves_unlisted_fields dbStoryDraftCh
    (updateChapter dbStoryDraftCh 20 1 { title := some "T2" }).2 20 1
    { title := some "T2" } (chapterDoc 0 1 "hello world" "draft" 2 3)
    (applyChapterUpdate (chapterDoc 0 1 "hello world" "draft" 2 3) { title := some "T2" } 20)
    (by decide) (by rfl)
  refine ⟨h.1, ?_, ?_, ?_⟩
  · exact (h.2.2.2.2.2.2.2.1 rfl).1
  · exact (h.2.2.2.2.2.2.2.1 rfl).2
  · exact h.2.2.2.2.2.2.1 "T2" rfl

/-- C7 as stated fails on the code: updating a chapter whose content is
"hello world" (stored wordCount 2) with changes that set content to the empty
string succeeds and stores content "", yet the stored wordCount stays 2,
while the token count of the stripped stored content is 0 — the truthiness
guard `updateData.content ? ... : undefined` skips the recomputation for
empty content. -/
theorem wordCount_stale_on_empty_content_update :
    (updateChapter dbStoryDraftCh 20 1 { content := some "" }).1 =
      Except.ok (applyChapterUpdate (chapterDoc 0 1 "hello world" "draft" 2 3)
        { content := some "" } 20) ∧
    (getDocData (updateChapter dbStoryDraftCh 20 1 { content := some "" }).2.chapters 1).map
        Chapter.content = some "" ∧
    (getDocData (updateChapter dbStoryDraftCh 20 1 { content := some "" }).2.chapters 1).map
        Chapter.wordCount = some 2 ∧
    calculateWordCount "" = 0 ∧ (2 : Nat) ≠ 0 :=
  ⟨by rfl, by decide, by decide, by rfl, by decide⟩

/-- C7 (amended): after createChapter the stored chapter's wordCount is the
whitespace-token count of its tag-stripped content (`calculateWordCount`, 0
for empty or markup-only content); after a successful updateChapter whose
changes set a non-empty content, the stored wordCount is `calculateWordCount`
of that new content; when the changes set content to the EMPTY string, the
code skips the recomputation: the stored content becomes empty but wordCount
keeps its prior value.  `calculateWordCount` itself always equals the token
count of the tag-stripped character list. -/
theorem wordCount_matches_content :
    (∀ (db : DB) (now : Nat) (input : ChapterInput),
      getDocData db.chapters db.nextId = none →
      (getDocData (createChapter db now input).2.chapters db.nextId).map Chapter.wordCount =
        some (calculateWordCount input.content)) ∧
    (∀ (db db2 : DB) (now cid : Nat) (upd : UpdateData) (ch c : Chapter) (content : String),
      getDocData db.chapters cid = some ch →
      updateChapter db now cid upd = (Except.ok c, db2) →
      upd.content = some content →
      (content ≠ "" → getDocData db2.chapters cid = some c ∧
        c.wordCount = calculateWordCount content ∧ c.content = content) ∧
      (content = "" → getDocData db2.chapters cid = some c ∧
        c.wordCount = ch.wordCount ∧ c.content = "")) ∧
    (∀ content : String,
      calculateWordCount content = countWordsAux (stripHtmlTags content.data) false) := by
  refine ⟨?_, ?_, ?_⟩
  · intro db now input hfresh
    rw [createChapter_stored db now input hfresh]
    rfl
  · intro db db2 now cid upd ch c content hch h hcontent
    obtain ⟨hc, hchs, _⟩ := updateChapter_ok_parts hch h
    subst hc
    have hstored : getDocData db2.chapters cid = some (applyChapterUpdate ch upd now) := by
      rw [hchs, getDocData_setDocData_self, hch]
      rfl
    constructor
    · intro hne
      refine ⟨hstored, ?_, ?_⟩
      · simp [applyChapterUpdate, contentTruthy, hcontent, hne]
      · simp [applyChapterUpdate, hcontent]
    · intro hemp
      subst hemp
      refine ⟨hstored, ?_, ?_⟩
      · simp [applyChapterUpdate, contentTruthy, hcontent]
      · simp [applyChapterUpdate, hcontent]
  · intro content
    by_cases hc : content = ""
    · subst hc
      rfl
    · unfold calculateWordCount
      rw [if_neg hc]

/-- Concrete run of the amended C7: creating a draft chapter with content
"hello world" stores wordCount 2; updating it to "one two three" stores
wordCount 3. -/
theorem wordCount_matches_content_witness :
    (getDocData (createChapter dbOneStory 10 (sampleInput "draft")).2.chapters 1).map
        Chapter.wordCount = some 2 ∧
    (getDocData (updateChapter dbStoryDraftCh 20 1
        { content := some "one two three" }).2.chapters 1).map Chapter.wordCount = some 3 := by
  constructor
  · have h := wordCount_matches_content.1 dbOneStory 10 (sampleInput "draft") (by decide)
    exact h.trans (by decide)
  · have h := (wordCount_matches_content.2.1 dbStoryDraftCh
      (updateChapter dbStoryDraftCh 20 1 { content := some "one two three" }).2 20 1
      { content := some "one two three" } (chapterDoc 0 1 "hello world" "draft" 2 3)
      (applyChapterUpdate (chapterDoc 0 1 "hello world" "draft" 2 3)
        { content := some "one two three" } 20) "one two three"
      (by decide) (by rfl) rfl).1 (by decide)
    rw [h.1]
    decide

/-! ### Suppressed count failure, next chapter number, cascade delete -/

theorem createChapter_fst_draft {db : DB} {now : Nat} {input : ChapterInput}
    (hp : input.status ≠ "published") :
    (createChapter db now input).1 = Except.ok (chapterToCreate now input) := by
  unfold createChapter
  dsimp only
  rw [if_neg hp]

theorem createChapter_stories_draft {db : DB} {now : Nat} {input : ChapterInput}
    (hp : input.status ≠ "published")
    (hs : getDocData db.stories input.storyId = none) :
    (createChapter db now input).2.stories = db.stories := by
  unfold createChapter
  dsimp only
  rw [if_neg hp]
  rw [@countForStory_absent
    { chapters := db.chapters ++ [(db.nextId, chapterToCreate now input)], stories := db.stories,
      storyEdits := db.storyEdits, nextId := db.nextId + 1 } input.storyId hs]

/-- C9: a failing chapter-count recomputation (here: the parent story document
is missing, so its `updateDoc` fails) is suppressed — createChapter still
returns the created chapter and commits it, and deleteChapter still succeeds
and removes the chapter; in both cases the stories collection is untouched and
no error escapes. -/
theorem count_failure_suppressed :
    (∀ (db : DB) (now : Nat) (input : ChapterInput),
      getDocData db.stories input.storyId = none →
      input.status ≠ "published" →
      getDocData db.chapters db.nextId = none →
      (createChapter db now input).1 = Except.ok (chapterToCreate now input) ∧
      getDocData (createChapter db now input).2.chapters db.nextId =
        some (chapterToCreate now input) ∧
      (createChapter db now input).2.stories = db.stories) ∧
    (∀ (db : DB) (cid : Nat) (ch : Chapter),
      getDocData db.chapters cid = some ch →
      getDocData db.stories ch.storyId = none →
      ∃ db2, deleteChapter db cid = Except.ok db2 ∧
        getDocData db2.chapters cid = none ∧
        db2.stories = db.stories) := by
  constructor
  · intro db now input hs hp hfresh
    exact ⟨createChapter_fst_draft hp, createChapter_stored db now input hfresh,
      createChapter_stories_draft hp hs⟩
  · intro db cid ch hch hs
    refine ⟨{ db with chapters := removeDoc db.chapters cid }, ?_, ?_, rfl⟩
    · unfold deleteChapter
      rw [hch]
      dsimp only
      rw [@countForStory_absent
        { chapters := removeDoc db.chapters cid, stories := db.stories,
          storyEdits := db.storyEdits, nextId := db.nextId } ch.storyId hs]
    · exact getDocData_removeDoc_self _ cid

/-- Concrete run of C9: creating a draft chapter for the missing story 7
succeeds, and deleting the chapter whose parent story 7 is missing succeeds
and removes it. -/
theorem count_failure_suppressed_witness :
    (createChapter dbOneStory 10 orphanInput).1 = Except.ok (chapterToCreate 10 orphanInput) ∧
    (∃ db2, deleteChapter dbOrphanCh 1 = Except.ok db2 ∧
      getDocData db2.chapters 1 = none ∧ db2.stories = dbOrphanCh.stories) := by
  constructor
  · exact (count_failure_suppressed.1 dbOneStory 10 orphanInput (by decide) (by decide)
      (by decide)).1
  · exact count_failure_suppressed.2 dbOrphanCh 1 (chapterDoc 7 1 "x" "draft" 1 3)
      (by decide) (by decide)

theorem foldl_max_init_le : ∀ (l : List Nat) (a : Nat), a ≤ l.foldl max a
  | [], a => le_refl a
  | y :: t, a => le_trans (le_max_left a y) (foldl_max_init_le t (max a y))

theorem foldl_max_le_of_mem : ∀ (l : List Nat) (a x : Nat), x ∈ l → x ≤ l.foldl max a
  | [], _, _, h => absurd h (List.not_mem_nil _)
  | y :: t, a, x, h => by
    rcases List.mem_cons.mp h with rfl | hmem
    · exact le_trans (le_max_right a x) (foldl_max_init_le t (max a x))
    · exact foldl_max_le_of_mem t (max a y) x hmem

theorem foldl_max_mem : ∀ (l : List Nat) (a : Nat), l.foldl max a = a ∨ l.foldl max a ∈ l
  | [], _ => Or.inl rfl
  | y :: t, a => by
    rw [List.foldl_cons]
    rcases foldl_max_mem t (max a y) with h | h
    · rcases max_choice a y with hm | hm
      · left
        rw [h, hm]
      · right
        rw [h, hm]
        exact List.mem_cons_self y t
    · right
      exact List.mem_cons_of_mem y h

/-- C6: getNextChapterNumber returns 1 when the story has no chapters, and
otherwise one more than the maximum chapterNumber among the story's chapters
(it is a strict upper bound and is attained by some chapter).  It is a pure
read: it takes the store and returns a number, writing nothing. -/
theorem getNextChapterNumber_spec (db : DB) (sid : Nat) :
    (getChaptersByStory db sid = [] → getNextChapterNumber db sid = 1) ∧
    (∀ p ∈ getChaptersByStory db sid, p.2.chapterNumber < getNextChapterNumber db sid) ∧
    (getChaptersByStory db sid ≠ [] →
      ∃ p ∈ getChaptersByStory db sid,
        getNextChapterNumber db sid = p.2.chapterNumber + 1) := by
  refine ⟨?_, ?_, ?_⟩
  · intro h
    simp [getNextChapterNumber, h]
  · intro p hp
    have hne : getChaptersByStory db sid ≠ [] := by
      intro h0
      rw [h0] at hp
      cases hp
    have hlen : ¬ (getChaptersByStory db sid).length = 0 := by
      simpa [List.length_eq_zero] using hne
    have hmem : p.2.chapterNumber ∈
        (getChaptersByStory db sid).map fun q => q.2.chapterNumber :=
      List.mem_map_of_mem _ hp
    have hle := foldl_max_le_of_mem _ 0 _ hmem
    unfold getNextChapterNumber
    dsimp only
    rw [if_neg hlen]
    omega
  · intro hne
    have hlen : ¬ (getChaptersByStory db sid).length = 0 := by
      simpa [List.length_eq_zero] using hne
    rcases foldl_max_mem ((getChaptersByStory db sid).map fun q => q.2.chapterNumber) 0
      with h0 | hmem
    · obtain ⟨p, hp⟩ := List.exists_mem_of_ne_nil _ hne
      refine ⟨p, hp, ?_⟩
      have hle := foldl_max_le_of_mem ((getChaptersByStory db sid).map fun q => q.2.chapterNumber)
        0 p.2.chapterNumber (List.mem_map_of_mem (fun q => q.2.chapterNumber) hp)
      rw [h0] at hle
      unfold getNextChapterNumber
      dsimp only
      rw [if_neg hlen, h0]
      omega
    · rcases List.mem_map.mp hmem with ⟨p, hp, hpe⟩
      refine ⟨p, hp, ?_⟩
      unfold getNextChapterNumber
      dsimp only
      rw [if_neg hlen, hpe]

/-- Concrete run of C6: chapters numbered 1, 2 and 4 give 5 (attained by the
chapter numbered 4); an empty story gives 1. -/
theorem getNextChapterNumber_spec_witness :
    getNextChapterNumber dbThreeCh 0 = 5 ∧ getNextChapterNumber dbOneStory 0 = 1 ∧
    (∃ p ∈ getChaptersByStory dbThreeCh 0,
      getNextChapterNumber dbThreeCh 0 = p.2.chapterNumber + 1) := by
  refine ⟨by decide, ?_, ?_⟩
  · exact (getNextChapterNumber_spec dbOneStory 0).1 (by decide)
  · exact (getNextChapterNumber_spec dbThreeCh 0).2.2 (by decide)

theorem mem_foldl_removeDoc {α : Type} :
    ∀ (chs : List (Nat × α)) (l : List (Nat × α)) (q : Nat × α),
      q ∈ chs.foldl (fun cur p => removeDoc cur p.1) l ↔
        q ∈ l ∧ ∀ p ∈ chs, q.1 ≠ p.1
  | [], l, q => by simp
  | p0 :: t, l, q => by
    rw [List.foldl_cons]
    rw [mem_foldl_removeDoc t (removeDoc l p0.1) q]
    rw [mem_removeDoc]
    constructor
    · rintro ⟨⟨hq, hne⟩, hall⟩
      refine ⟨hq, fun p hp => ?_⟩
      rcases List.mem_cons.mp hp with rfl | hmem
      · exact hne
      · exact hall p hmem
    · rintro ⟨hq, hall⟩
      exact ⟨⟨hq, hall p0 (List.mem_cons_self _ _)⟩,
        fun p hp => hall p (List.mem_cons_of_mem _ hp)⟩

theorem getChaptersByStory_eq_nil {db : DB} {sid : Nat}
    (h : ∀ p ∈ db.chapters, p.2.storyId ≠ sid) : getChaptersByStory db sid = [] := by
  cases hx : getChaptersByStory db sid with
  | nil => rfl
  | cons q t =>
    have hq : q ∈ getChaptersByStory db sid := by
      rw [hx]
      exact List.mem_cons_self q t
    rw [mem_getChaptersByStory] at hq
    exact absurd hq.2 (h q hq.1)

/-- C8: after deleteStory, a query for the story's chapters returns the empty
result, and a lookup of the story by id fails with the not-found error. -/
theorem deleteStory_cascades (db : DB) (sid : Nat) :
    getChaptersByStory (deleteStory db sid) sid = [] ∧
    getStoryById (deleteStory db sid) sid =
      Except.error "Failed to fetch story: Story not found" := by
  constructor
  · apply getChaptersByStory_eq_nil
    intro p hp hsid
    have hp2 : p ∈ (getChaptersByStory db sid).foldl
        (fun cur r => removeDoc cur r.1) db.chapters := hp
    have hparts := (mem_foldl_removeDoc _ _ _).mp hp2
    exact hparts.2 p (mem_getChaptersByStory.mpr ⟨hparts.1, hsid⟩) rfl
  · unfold getStoryById deleteStory
    dsimp only
    rw [getDocData_removeDoc_self]

/-! ### Chapter-count consistency (C3) -/

theorem liveChapterCount_chapters {db db2 : DB} (h : db2.chapters = db.chapters) (sid : Nat) :
    liveChapterCount db2 sid = liveChapterCount db sid := by
  unfold liveChapterCount
  rw [h]

theorem filter_removeDoc_eq {α : Type} (P : Nat × α → Bool) :
    ∀ (l : List (Nat × α)) (cid : Nat) (v : α),
      (l.map Prod.fst).Nodup → getDocData l cid = some v → P (cid, v) = false →
      (removeDoc l cid).filter P = l.filter P
  | [], cid, v, _, hch, _ => by rw [getDocData_nil] at hch; cases hch
  | (k1, v1) :: rest, cid, v, hnd, hch, hP => by
    rw [List.map_cons, List.nodup_cons] at hnd
    rw [getDocData_cons] at hch
    rw [removeDoc_cons]
    by_cases hk : k1 = cid
    · subst hk
      rw [if_pos rfl] at hch
      injection hch with hch
      subst hch
      rw [if_pos rfl]
      have habs : ∀ p ∈ rest, p.1 ≠ k1 := by
        intro p hp he
        exact hnd.1 (by rw [← he]; exact List.mem_map.mpr ⟨p, hp, rfl⟩)
      rw [removeDoc_of_absent habs, List.filter_cons, hP]
      simp
    · rw [if_neg hk] at hch
      rw [if_neg hk]
      have ih := filter_removeDoc_eq P rest cid v hnd.2 hch hP
      rw [List.filter_cons, List.filter_cons, ih]

theorem liveCount_remove_ne {db : DB} {cid : Nat} {ch : Chapter} {sid : Nat}
    (hnd : (db.chapters.map Prod.fst).Nodup)
    (hch : getDocData db.chapters cid = some ch) (hne : ch.storyId ≠ sid) :
    liveChapterCount { db with chapters := removeDoc db.chapters cid } sid =
      liveChapterCount db sid := by
  unfold liveChapterCount
  dsimp only
  rw [filter_removeDoc_eq _ _ _ _ hnd hch (by simp [hne])]

theorem wf_create (db : DB) (now : Nat) (input : ChapterInput)
    (hwf : chapterKeysWellFormed db) :
    chapterKeysWellFormed (createChapter db now input).2 := by
  obtain ⟨hnd, hbd⟩ := hwf
  constructor
  · rw [createChapter_chapters, List.map_append, List.nodup_append]
    refine ⟨hnd, List.nodup_singleton _, ?_⟩
    intro k hk hk2
    simp only [List.map_cons, List.map_nil, List.mem_singleton] at hk2
    subst hk2
    exact absurd (hbd _ hk) (lt_irrefl _)
  · intro k hk
    rw [createChapter_nextId]
    rw [createChapter_chapters, List.map_append] at hk
    rcases List.mem_append.mp hk with hk | hk
    · exact lt_trans (hbd k hk) (Nat.lt_succ_self _)
    · simp only [List.map_cons, List.map_nil, List.mem_singleton] at hk
      subst hk
      exact Nat.lt_succ_self _

theorem deleteChapter_parts {db db2 : DB} {cid : Nat}
    (h : deleteChapter db cid = Except.ok db2) :
    ∃ ch, getDocData db.chapters cid = some ch ∧
      db2 = updateStoryChapterCountForStory
        { db with chapters := removeDoc db.chapters cid } ch.storyId := by
  unfold deleteChapter at h
  cases hch : getDocData db.chapters cid with
  | none => rw [hch] at h; cases h
  | some ch =>
    rw [hch] at h
    injection h with h
    exact ⟨ch, rfl, h.symm⟩

theorem wf_delete (db : DB) (cid : Nat) (hwf : chapterKeysWellFormed db) :
    chapterKeysWellFormed (runChapterMutation db (ChapterMutation.deleteMut cid)) := by
  obtain ⟨hnd, hbd⟩ := hwf
  cases hdel : deleteChapter db cid with
  | error e =>
    simp only [runChapterMutation, hdel]
    exact ⟨hnd, hbd⟩
  | ok db2 =>
    simp only [runChapterMutation, hdel]
    obtain ⟨ch, hch, rfl⟩ := deleteChapter_parts hdel
    have hchap : (updateStoryChapterCountForStory
        { db with chapters := removeDoc db.chapters cid } ch.storyId).chapters =
          removeDoc db.chapters cid := count_chapters_eq _ _
    have hnid : (updateStoryChapterCountForStory
        { db with chapters := removeDoc db.chapters cid } ch.storyId).nextId =
          db.nextId := count_nextId_eq _ _
    constructor
    · rw [hchap]
      exact hnd.sublist (List.Sublist.map Prod.fst (List.filter_sublist _))
    · intro k hk
      rw [hnid]
      rw [hchap] at hk
      exact hbd k (List.map_subset Prod.fst
        (List.Sublist.subset (List.filter_sublist _)) hk)

theorem createChapter_stories_absent {db : DB} {now : Nat} {input : ChapterInput}
    (hsx : getDocData db.stories input.storyId = none) :
    (createChapter db now input).2.stories = db.stories := by
  unfold createChapter
  dsimp only
  rw [@countForStory_absent
    { chapters := db.chapters ++ [(db.nextId, chapterToCreate now input)],
      stories := db.stories, storyEdits := db.storyEdits, nextId := db.nextId + 1 }
    input.storyId hsx]
  split
  · rw [touchStoryUpdatedAt_error
      { chapters := db.chapters ++ [(db.nextId, chapterToCreate now input)],
        stories := db.stories, storyEdits := db.storyEdits, nextId := db.nextId + 1 }
      input.storyId now hsx]
  · rfl

theorem createChapter_stories_present {db : DB} {now : Nat} {input : ChapterInput} {s : Story}
    (hsx : getDocData db.stories input.storyId = some s) :
    (createChapter db now input).2.stories =
      setDocData db.stories input.storyId
        { s with chapters := (getChaptersByStory
            { chapters := db.chapters ++ [(db.nextId, chapterToCreate now input)],
              stories := db.stories, storyEdits := db.storyEdits,
              nextId := db.nextId + 1 } input.storyId).length } ∨
    (createChapter db now input).2.stories =
      setDocData (setDocData db.stories input.storyId
          { s with chapters := (getChaptersByStory
              { chapters := db.chapters ++ [(db.nextId, chapterToCreate now input)],
                stories := db.stories, storyEdits := db.storyEdits,
                nextId := db.nextId + 1 } input.storyId).length })
        input.storyId
        { s with
          chapters := (getChaptersByStory
            { chapters := db.chapters ++ [(db.nextId, chapterToCreate now input)],
              stories := db.stories, storyEdits := db.storyEdits,
              nextId := db.nextId + 1 } input.storyId).length,
          updatedAt := now } := by
  unfold createChapter
  dsimp only
  rw [@countForStory_present
    { chapters := db.chapters ++ [(db.nextId, chapterToCreate now input)],
      stories := db.stories, storyEdits := db.storyEdits, nextId := db.nextId + 1 }
    input.storyId s hsx]
  split
  · have hl : getDocData
        (setDocData db.stories input.storyId
          { s with chapters := (getChaptersByStory
              { chapters := db.chapters ++ [(db.nextId, chapterToCreate now input)],
                stories := db.stories, storyEdits := db.storyEdits,
                nextId := db.nextId + 1 } input.storyId).length })
        input.storyId =
        some { s with chapters := (getChaptersByStory
            { chapters := db.chapters ++ [(db.nextId, chapterToCreate now input)],
              stories := db.stories, storyEdits := db.storyEdits,
              nextId := db.nextId + 1 } input.storyId).length } := by
      rw [getDocData_setDocData_self, hsx]
      rfl
    rw [touchStoryUpdatedAt_ok _ input.storyId now _ hl]
    right
    rfl
  · left
    rfl

theorem cc_create (db : DB) (now : Nat) (input : ChapterInput)
    (hcc : chapterCountConsistent db) :
    chapterCountConsistent (createChapter db now input).2 := by
  have hlive_ne : ∀ sid2, sid2 ≠ input.storyId →
      liveChapterCount (createChapter db now input).2 sid2 = liveChapterCount db sid2 := by
    intro sid2 hne
    unfold liveChapterCount
    rw [createChapter_chapters, List.filter_append]
    have hnil : List.filter (fun p => p.2.storyId == sid2)
        [(db.nextId, chapterToCreate now input)] = [] := by
      simp [chapterToCreate, Ne.symm hne]
    rw [hnil, List.append_nil]
  intro p hp
  cases hsx : getDocData db.stories input.storyId with
  | none =>
    rw [createChapter_stories_absent hsx] at hp
    have hne : p.1 ≠ input.storyId := (getDocData_eq_none_iff _ _).mp hsx p hp
    rw [hlive_ne p.1 hne]
    exact hcc p hp
  | some s =>
    have hn : (getChaptersByStory
        { chapters := db.chapters ++ [(db.nextId, chapterToCreate now input)],
          stories := db.stories, storyEdits := db.storyEdits,
          nextId := db.nextId + 1 } input.storyId).length =
        liveChapterCount (createChapter db now input).2 input.storyId := by
      rw [length_getChaptersByStory]
      exact (@liveChapterCount_chapters
        { chapters := db.chapters ++ [(db.nextId, chapterToCreate now input)],
          stories := db.stories, storyEdits := db.storyEdits, nextId := db.nextId + 1 }
        (createChapter db now input).2 (createChapter_chapters db now input)
        input.storyId).symm
    rcases createChapter_stories_present hsx with hst | hst <;> rw [hst] at hp
    · rcases mem_setDocData hp with heq | ⟨hmem, hne⟩
      · rw [heq]
        dsimp only
        exact hn
      · rw [hlive_ne p.1 hne]
        exact hcc p hmem
    · rcases mem_setDocData hp with heq | ⟨hp2, hne⟩
      · rw [heq]
        dsimp only
        exact hn
      · rcases mem_setDocData hp2 with heq2 | ⟨hmem, hne2⟩
        · exfalso
          rw [heq2] at hne
          exact hne rfl
        · rw [hlive_ne p.1 hne]
          exact hcc p hmem

theorem cc_delete (db : DB) (cid : Nat)
    (hwf : chapterKeysWellFormed db) (hcc : chapterCountConsistent db) :
    chapterCountConsistent (runChapterMutation db (ChapterMutation.deleteMut cid)) := by
  cases hdel : deleteChapter db cid with
  | error e =>
    simp only [runChapterMutation, hdel]
    exact hcc
  | ok db2 =>
    simp only [runChapterMutation, hdel]
    obtain ⟨ch, hch, rfl⟩ := deleteChapter_parts hdel
    intro p hp
    have hgoal : liveChapterCount (updateStoryChapterCountForStory
        { chapters := removeDoc db.chapters cid, stories := db.stories,
          storyEdits := db.storyEdits, nextId := db.nextId } ch.storyId) p.1 =
        liveChapterCount
          { chapters := removeDoc db.chapters cid, stories := db.stories,
            storyEdits := db.storyEdits, nextId := db.nextId } p.1 :=
      liveChapterCount_chapters (count_chapters_eq _ _) p.1
    rw [hgoal]
    cases hsx : getDocData db.stories ch.storyId with
    | none =>
      rw [@countForStory_absent
        { chapters := removeDoc db.chapters cid, stories := db.stories,
          storyEdits := db.storyEdits, nextId := db.nextId } ch.storyId hsx] at hp
      have hne : p.1 ≠ ch.storyId := (getDocData_eq_none_iff _ _).mp hsx p hp
      rw [liveCount_remove_ne hwf.1 hch (fun hh => hne hh.symm)]
      exact hcc p hp
    | some s =>
      rw [@countForStory_present
        { chapters := removeDoc db.chapters cid, stories := db.stories,
          storyEdits := db.storyEdits, nextId := db.nextId } ch.storyId s hsx] at hp
      rcases mem_setDocData hp with heq | ⟨hmem, hne⟩
      · rw [heq]
        dsimp only
        rw [length_getChaptersByStory]
      · have hne2 : p.1 ≠ ch.storyId := hne
        rw [liveCount_remove_ne hwf.1 hch (fun hh => hne2 hh.symm)]
        exact hcc p hmem

/-- C3: after any sequence of CreateChapter and DeleteChapter calls run to
completion (their suppressed chapter-count follow-ups included), every stored
story's chapter-count field equals the live number of chapter documents whose
storyId references it, provided it did initially and the store's chapter ids
are the distinct ids addDoc assigns. -/
theorem chapter_count_consistency (db : DB) (ops : List ChapterMutation)
    (hwf : chapterKeysWellFormed db) (hcc : chapterCountConsistent db) :
    chapterCountConsistent (runChapterMutations db ops) := by
  induction ops generalizing db with
  | nil => exact hcc
  | cons op t ih =>
    cases op with
    | createMut now input =>
      exact ih (createChapter db now input).2 (wf_create db now input hwf)
        (cc_create db now input hcc)
    | deleteMut cid =>
      exact ih (runChapterMutation db (ChapterMutation.deleteMut cid))
        (wf_delete db cid hwf) (cc_delete db cid hwf hcc)

/-- Concrete run of C3: two creations and one deletion against a one-story
store leave the stored count equal to the live chapter count. -/
theorem chapter_count_consistency_witness :
    chapterCountConsistent (runChapterMutations dbOneStory
      [ChapterMutation.createMut 10 (sampleInput "draft"),
       ChapterMutation.createMut 11 (sampleInput "draft"),
       ChapterMutation.deleteMut 1]) :=
  chapter_count_consistency dbOneStory
    [ChapterMutation.createMut 10 (sampleInput "draft"),
     ChapterMutation.createMut 11 (sampleInput "draft"),
     ChapterMutation.deleteMut 1]
    (by unfold chapterKeysWellFormed; decide)
    (by unfold chapterCountConsistent liveChapterCount; decide)

/-! ### Store-wide updatedAt invariant (C2) -/

theorem publishChaptersLoop_stories (now : Nat) :
    ∀ (ids : List Nat) (db db2 : DB), publishChaptersLoop now ids db = Except.ok db2 →
      db2.stories = db.stories
  | [], db, db2, h => by
    injection h with h
    rw [← h]
  | cid :: rest, db, db2, h => by
    unfold publishChaptersLoop at h
    cases hg : getDocData db.chapters cid with
    | none =>
      rw [hg] at h
      cases h
    | some ch =>
      rw [hg] at h
      dsimp only at h
      have h2 := publishChaptersLoop_stories now rest _ db2 h
      exact h2

theorem reorderChaptersLoop_stories (now : Nat) :
    ∀ (orders : List (Nat × Nat)) (db db2 : DB),
      reorderChaptersLoop now orders db = Except.ok db2 → db2.stories = db.stories
  | [], db, db2, h => by
    injection h with h
    rw [← h]
  | (cid, num) :: rest, db, db2, h => by
    unfold reorderChaptersLoop at h
    cases hg : getDocData db.chapters cid with
    | none =>
      rw [hg] at h
      cases h
    | some ch =>
      rw [hg] at h
      dsimp only at h
      have h2 := reorderChaptersLoop_stories now rest _ db2 h
      exact h2

theorem updateStory_absent {db : DB} {now sid : Nat} {upd : StoryUpdate}
    (hg : getDocData db.stories sid = none) :
    updateStory db now sid upd =
      Except.error "Failed to update story: No document to update" := by
  unfold updateStory
  rw [hg]

theorem updateStory_present {db : DB} {now sid : Nat} {upd : StoryUpdate} {s : Story}
    (hg : getDocData db.stories sid = some s) :
    updateStory db now sid upd = Except.ok
      ({ s with
          title := upd.title.getD s.title, description := upd.description.getD s.description,
          category := upd.category.getD s.category, status := upd.status.getD s.status,
          coverImage := upd.coverImage, updatedAt := now },
       { db with
         stories := setDocData db.stories sid
          { s with
            title := upd.title.getD s.title, description := upd.description.getD s.description,
            category := upd.category.getD s.category, status := upd.status.getD s.status,
            coverImage := upd.coverImage, updatedAt := now } }) := by
  unfold updateStory
  rw [hg]
  dsimp only
  rw [getDocData_setDocData_self, hg]
  rfl

theorem updateStoryChapterCount_absent {db : DB} {sid n : Nat}
    (hg : getDocData db.stories sid = none) :
    updateStoryChapterCount db sid n =
      Except.error "Failed to update story chapter count: No document to update" := by
  unfold updateStoryChapterCount
  rw [hg]

theorem updateStoryChapterCount_present {db : DB} {sid n : Nat} {s : Story}
    (hg : getDocData db.stories sid = some s) :
    updateStoryChapterCount db sid n =
      Except.ok { db with stories := setDocData db.stories sid { s with chapters := n } } := by
  unfold updateStoryChapterCount
  rw [hg]

/-- C2 (amended): over every operation of the two services, a story's
`updatedAt` is set to the operation's server time exactly when the operation
is a direct edit of the story itself, a createChapter of a published chapter
for it, or an updateChapter moving one of its chapters into `published` from
another status (`storyTouchingOp`); in every other case — chapter-count
writes, chapter deletion, reordering, draft edits, cascade deletes of other
stories, AND the bulk publishChapters operation even when it transitions this
story's chapters into `published` — the story's `updatedAt` keeps its old
value.  The exclusion of publishChapters is the amendment the code forces. -/
theorem story_updatedAt_invariant (db : DB) (now : Nat) (op : Op) (sid : Nat)
    (s s2 : Story)
    (hs : getDocData db.stories sid = some s)
    (hs2 : getDocData (runOp db now op).stories sid = some s2) :
    s2.updatedAt = if storyTouchingOp db sid op then now else s.updatedAt := by
  cases op with
  | opCreateChapter input =>
    have h := createChapter_story_updatedAt db now input sid s hs
    simp only [runOp] at hs2
    rw [hs2, Option.map_some'] at h
    injection h with h
  | opUpdateChapter cid upd =>
    cases hch : getDocData db.chapters cid with
    | none =>
      simp only [runOp] at hs2
      rw [updateChapter_notFound hch] at hs2
      dsimp only at hs2
      rw [hs] at hs2
      injection hs2 with hs2
      simp only [storyTouchingOp, hch]
      rw [← hs2]
      simp
    | some ch =>
      have h := updateChapter_story_updatedAt db now cid upd ch sid s hch hs
      simp only [runOp] at hs2
      rw [hs2, Option.map_some'] at h
      injection h with h
      simp only [storyTouchingOp, hch]
      exact h
  | opDeleteChapter cid =>
    cases hdel : deleteChapter db cid with
    | error e =>
      simp only [runOp, hdel] at hs2
      rw [hs] at hs2
      injection hs2 with hs2
      simp only [storyTouchingOp]
      rw [← hs2]
      simp
    | ok db2 =>
      simp only [runOp, hdel] at hs2
      obtain ⟨ch, hch, rfl⟩ := deleteChapter_parts hdel
      have h := count_stories_updatedAt
        { chapters := removeDoc db.chapters cid, stories := db.stories,
          storyEdits := db.storyEdits, nextId := db.nextId } ch.storyId sid
      rw [hs2, Option.map_some'] at h
      dsimp only at h
      rw [hs, Option.map_some'] at h
      injection h with h
  | opDeleteStory sid2 =>
    simp only [runOp] at hs2
    unfold deleteStory deleteChaptersByStoryId at hs2
    by_cases he : sid = sid2
    · subst he
      rw [getDocData_removeDoc_self] at hs2
      cases hs2
    · rw [getDocData_removeDoc_ne _ he] at hs2
      rw [hs] at hs2
      injection hs2 with hs2
      simp only [storyTouchingOp]
      rw [← hs2]
      simp
  | opCreateStory input url =>
    simp only [runOp, createStory] at hs2
    rw [getDocData_append_left hs] at hs2
    injection hs2 with hs2
    simp only [storyTouchingOp]
    rw [← hs2]
    simp
  | opUpdateStory sid2 upd =>
    cases hg : getDocData db.stories sid2 with
    | none =>
      simp only [runOp] at hs2
      rw [updateStory_absent hg] at hs2
      dsimp only at hs2
      rw [hs] at hs2
      injection hs2 with hs2
      have hne : ¬ sid2 = sid := by
        intro he
        rw [he, hs] at hg
        cases hg
      simp only [storyTouchingOp]
      rw [← hs2]
      simp [hne]
    | some s0 =>
      simp only [runOp] at hs2
      rw [updateStory_present hg] at hs2
      dsimp only at hs2
      by_cases he : sid2 = sid
      · subst he
        rw [getDocData_setDocData_self, hg, Option.map_some'] at hs2
        injection hs2 with hs2
        simp only [storyTouchingOp]
        rw [← hs2]
        simp
      · rw [getDocData_setDocData_ne _ _ (fun hx => he hx.symm)] at hs2
        rw [hs] at hs2
        injection hs2 with hs2
        simp only [storyTouchingOp]
        rw [← hs2]
        simp [he]
  | opUpdateStoryChapterCount sid2 n =>
    cases hg : getDocData db.stories sid2 with
    | none =>
      simp only [runOp] at hs2
      rw [updateStoryChapterCount_absent hg] at hs2
      dsimp only at hs2
      rw [hs] at hs2
      injection hs2 with hs2
      simp only [storyTouchingOp]
      rw [← hs2]
      simp
    | some s0 =>
      simp only [runOp] at hs2
      rw [updateStoryChapterCount_present hg] at hs2
      dsimp only at hs2
      by_cases he : sid2 = sid
      · subst he
        rw [getDocData_setDocData_self, hg, Option.map_some'] at hs2
        injection hs2 with hs2
        have hs0 : s = s0 := by
          rw [hs] at hg
          injection hg
        simp only [storyTouchingOp]
        rw [← hs2]
        simp [hs0]
      · rw [getDocData_setDocData_ne _ _ (fun hx => he hx.symm)] at hs2
        rw [hs] at hs2
        injection hs2 with hs2
        simp only [storyTouchingOp]
        rw [← hs2]
        simp
  | opPublishChapters ids =>
    cases hp : publishChapters db now ids with
    | error e =>
      simp only [runOp, hp] at hs2
      rw [hs] at hs2
      injection hs2 with hs2
      simp only [storyTouchingOp]
      rw [← hs2]
      simp
    | ok db2 =>
      simp only [runOp, hp] at hs2
      have hst : db2.stories = db.stories := by
        unfold publishChapters at hp
        cases hl : publishChaptersLoop now ids db with
        | ok db3 =>
          rw [hl] at hp
          dsimp only at hp
          injection hp with hp
          rw [← hp]
          exact publishChaptersLoop_stories now ids db db3 hl
        | error e2 =>
          rw [hl] at hp
          cases hp
      rw [hst, hs] at hs2
      injection hs2 with hs2
      simp only [storyTouchingOp]
      rw [← hs2]
      simp
  | opReorderChapters os =>
    cases hp : reorderChapters db now os with
    | error e =>
      simp only [runOp, hp] at hs2
      rw [hs] at hs2
      injection hs2 with hs2
      simp only [storyTouchingOp]
      rw [← hs2]
      simp
    | ok db2 =>
      simp only [runOp, hp] at hs2
      have hst : db2.stories = db.stories := by
        unfold reorderChapters at hp
        cases hl : reorderChaptersLoop now os db with
        | ok db3 =>
          rw [hl] at hp
          dsimp only at hp
          injection hp with hp
          rw [← hp]
          exact reorderChaptersLoop_stories now os db db3 hl
        | error e2 =>
          rw [hl] at hp
          cases hp
      rw [hst, hs] at hs2
      injection hs2 with hs2
      simp only [storyTouchingOp]
      rw [← hs2]
      simp

/-- C2 as stated is false on the code: the bulk publishChapters operation
transitions the draft chapter of story 0 into `published`, which the claim
calls a publish-relevant event, yet the story's `updatedAt` stays 5 instead
of advancing to the server time 10 — publishChapters writes only the chapter
documents. -/
theorem bulk_publish_leaves_story_updatedAt :
    (getDocData dbStoryDraftCh.chapters 1).map Chapter.status = some "draft" ∧
    (getDocData dbStoryDraftCh.chapters 1).map Chapter.storyId = some 0 ∧
    (getDocData (runOp dbStoryDraftCh 10 (Op.opPublishChapters [1])).chapters 1).map
        Chapter.status = some "published" ∧
    (getDocData dbStoryDraftCh.stories 0).map Story.updatedAt = some 5 ∧
    (getDocData (runOp dbStoryDraftCh 10 (Op.opPublishChapters [1])).stories 0).map
        Story.updatedAt = some 5 ∧ (5 : Nat) ≠ 10 := by
  decide

/-- Concrete run of the amended C2: bulk-publishing chapter 1 leaves story 0's
updatedAt at 5 (publishChapters is not a story-touching operation); publishing
the same chapter through updateChapter sets it to the server time 20. -/
theorem story_updatedAt_invariant_witness :
    (storyDoc 1 5).updatedAt =
      (if storyTouchingOp dbStoryDraftCh 0 (Op.opPublishChapters [1]) then 10
       else (storyDoc 1 5).updatedAt) ∧
    (storyDoc 1 20).updatedAt =
      (if storyTouchingOp dbStoryDraftCh 0
          (Op.opUpdateChapter 1 { status := some "published" }) then 20
       else (storyDoc 1 5).updatedAt) := by
  constructor
  · exact story_updatedAt_invariant dbStoryDraftCh 10 (Op.opPublishChapters [1]) 0
      (storyDoc 1 5) (storyDoc 1 5) (by decide) (by decide)
  · exact story_updatedAt_invariant dbStoryDraftCh 20
      (Op.opUpdateChapter 1 { status := some "published" }) 0
      (storyDoc 1 5) (storyDoc 1 20) (by decide) (by decide)
